import Mathlib

/-!
Verification of the RNPDNO scraper (`master_rnpdno_metadata_and_pdfs.py`)
against its natural-language specification.

The per-item pipeline (`process_row`), the resume check (`already_done`),
the filename sanitizer (`sanitize_filename`), the modal-height stabilization
loop, and the page-traversal coordinator (`main`'s loops) are shallowly
embedded as pure Lean functions.  External effects (Playwright calls, file
writes) are represented by an explicit `Effect` trace, and the behavior of
each external call is an input (`RowEnv`) so that every control-flow path of
the source can be exercised.  Diagnostic exception text interpolated into
note strings by the source (for instance the text after the colon of
`modal_click_failed:` and the time delays' float units, rendered here in
milliseconds) is elided from the embedding; only the fixed part of each
note string is kept.
-/

namespace RNPDNO

/-! ## Idempotent ledger: `already_done` (source lines 108-119)

The ledger file `download_log.csv` is modeled as `Option (List (List String))`:
`none` when the file does not exist, otherwise the list of CSV records, each a
list of fields.  `str.isdigit()` of Python is modeled for ASCII digit strings
(`pyIsDigit`); for a string accepted by `pyIsDigit`, Python's `int` and
`strToNat` agree, and the `int(r[1])` call that can raise inside the source's
bare `try`/`except` is modeled by the `pyIsDigit (r.getD 1 "")` test: when it
fails, the row is skipped, exactly as the `except: continue` does. -/

def pyIsDigit (s : String) : Bool :=
  !s.data.isEmpty && s.data.all Char.isDigit

/-- Value of Python's `int` on a string of ASCII digits (the only strings it
is applied to, thanks to the `pyIsDigit` guards). -/
def strToNat (s : String) : Nat :=
  s.data.foldl (fun n c => n * 10 + (c.toNat - 48)) 0

/-- One iteration of the scan in `already_done`: does CSV record `r` make the
key `(page_num, row_idx)` count as done?  Mirrors
`len(r) >= 7 and r[0].isdigit()` followed by the guarded comparison
`int(r[0]) == page_num and int(r[1]) == row_idx and r[6] == "success"`,
where a raising `int(r[1])` is swallowed by the bare `except`. -/
def rowSaysDone (page_num row_idx : Nat) (r : List String) : Bool :=
  if 7 ≤ r.length ∧ pyIsDigit (r.getD 0 "") = true then
    if strToNat (r.getD 0 "") = page_num then
      if pyIsDigit (r.getD 1 "") = true then
        decide (strToNat (r.getD 1 "") = row_idx) && decide (r.getD 6 "" = "success")
      else false
    else false
  else false

/-- `already_done(page_num, row_idx)` of the source: `False` when the log file
does not exist, otherwise a scan over all CSV records. -/
def already_done (ledger : Option (List (List String))) (page_num row_idx : Nat) : Bool :=
  match ledger with
  | none => false
  | some rows => rows.any (rowSaysDone page_num row_idx)

/-- The specification's reading of "a ledger entry for `key` with status
`success`": a well-formed record (at least 7 fields, numeric page and row
fields) whose key fields parse to the given key and whose status field (index
6) is `success`. -/
def SuccessEntryFor (page_num row_idx : Nat) (r : List String) : Prop :=
  7 ≤ r.length ∧ pyIsDigit (r.getD 0 "") = true ∧ strToNat (r.getD 0 "") = page_num ∧
    pyIsDigit (r.getD 1 "") = true ∧ strToNat (r.getD 1 "") = row_idx ∧
    r.getD 6 "" = "success"

instance (page_num row_idx : Nat) (r : List String) :
    Decidable (SuccessEntryFor page_num row_idx r) := by
  unfold SuccessEntryFor; infer_instance

/-- The header record written by `init_logs` into `download_log.csv`. -/
def logHeaderRow : List String :=
  ["page", "row_index", "name", "folio", "filename", "api_url", "status", "notes"]

/-! ## Filename sanitizer (source lines 69-71)

`re.sub(r"[^\w\-_\. ]", "_", s)` followed by `s[:maxlen]`.  Python's `\w` on
`str` is Unicode-aware; it is modeled here for the code points this repository
actually handles: ASCII alphanumerics, the underscore, and the Latin
letters of the Latin-1 Supplement and Latin Extended-A blocks
(U+00C0 to U+017F, excluding the multiplication and division signs U+00D7 and
U+00F7), which cover all Spanish accented letters appearing in the data. -/

def pyWordChar (c : Char) : Bool :=
  c.isAlphanum || c = '_' ||
    (0xC0 ≤ c.toNat && c.toNat ≤ 0x17F && c.toNat ≠ 0xD7 && c.toNat ≠ 0xF7)

/-- The character class `[\w\-_\. ]` of the substitution: characters kept
unchanged by `sanitize_filename`. -/
def keepChar (c : Char) : Bool :=
  pyWordChar c || c = '-' || c = '_' || c = '.' || c = ' '

def sanitize_trunc (s : String) (maxlen : Nat) : String :=
  String.mk ((s.data.map (fun c => if keepChar c then c else '_')).take maxlen)

/-- `sanitize_filename` with its default `maxlen = 120`. -/
def sanitize_filename (s : String) : String :=
  sanitize_trunc s 120

/-! ## The per-item state machine: `process_row` (source lines 208-412)

`process_row` is embedded as a pure function from the ledger contents, the
behavior of the external automation layer for this item (`RowEnv`), the item
key and the `dry_run` flag, to the returned `(status, note)` pair together
with the ordered trace of side effects performed (`List Effect`).

A `RowEnv` fixes the outcome of each external call the source makes:
how many `<tr>` rows the listing page currently has, the `nombre` and
`folio_unico` cells of this row, whether the modal trigger is found and
whether clicking it raises, whether the CONFIDENCIAL modal appears within its
3s wait, whether the normal PrimeNG modal appears within its 20s wait, whether
the modal-resize `evaluate` succeeds (section G), what the temporary-page
capture does (section H), whether `save_bytes` succeeds, and whether the final
modal-close attempt raises.  Fixed `asyncio.sleep` delays are recorded in the
trace in milliseconds (`sleepMs 4000`, `sleepMs 3000`, and the `ROW_DELAY`
pacing `sleepMs 120`). -/

/-- One appended record of `download_log.csv`, as passed to `append_log`. -/
structure LogEntry where
  page : Nat
  row_index : Nat
  name : String
  folio : String
  filename : String
  api_url : String
  status : String
  notes : String
deriving DecidableEq, Repr

/-- Behavior of section H of `process_row` (the temporary capture page).
`raiseBefore`: `context.new_page()` itself raises, so no temporary page ever
exists.  `raiseAfter`: one of `set_content`, `evaluate` or `pdf` raises after
the page was created.  `ok warnTimeout pdfLen`: capture completes;
`warnTimeout` is whether the inner `wait_for_selector` timed out (which only
appends a `warning` log row), and `pdfLen` is the byte length of the returned
PDF (`0` models falsy empty bytes). -/
inductive CaptureOutcome where
  | raiseBefore
  | raiseAfter
  | ok (warnTimeout : Bool) (pdfLen : Nat)
deriving DecidableEq, Repr

/-- Behavior of section C (the modal trigger inside the row): the trigger
element is missing, clicking it raises, or the click succeeds. -/
inductive TriggerOutcome where
  | missing
  | clickRaises
  | clicked
deriving DecidableEq, Repr

/-- The behavior of the external automation layer for one `process_row`
invocation. -/
structure RowEnv where
  nrows : Nat
  nombre : String
  folio_unico : String
  trigger : TriggerOutcome
  confidential : Bool
  modalAppears : Bool
  resizeOk : Bool
  capture : CaptureOutcome
  saveOk : Bool
  closeRaises : Bool
deriving DecidableEq, Repr

/-- Observable side effects of one `process_row` invocation, in order. -/
inductive Effect where
  | logAppend (e : LogEntry)
  | metaAppend (pdf_filename api_url : String) (page row_index : Nat)
  | pdfWrite (path : String)
  | tmpPageOpen
  | tmpPageClose
  | closeAttempt (raised : Bool)
  | sleepMs (ms : Nat)
deriving DecidableEq, Repr

/-- The per-item state machine, sections A-J of the source.  Note that the
`dry_run` parameter is accepted (as in the source signature, line 208) but
never read anywhere in the body, exactly as in the source. -/
def process_row (ledger : Option (List (List String))) (env : RowEnv)
    (page_num row_idx : Nat) (dry_run : Bool) : String × String × List Effect :=
  -- A) row already done?
  if already_done ledger page_num row_idx then
    ("skipped", "already_logged", ([] : List Effect))
  -- bounds check on the re-queried rows
  else if env.nrows ≤ row_idx then
    ("error", "row_index_out_of_bounds", ([] : List Effect))
  else
    -- B) metadata extracted from the row
    let name_text := if env.nombre = "" then "unknown" else env.nombre
    let folio := env.folio_unico
    let out_path := "rnpdno_pdfs/" ++ sanitize_filename (name_text ++ "_" ++ folio) ++ ".pdf"
    -- C) click modal trigger
    match env.trigger with
    | TriggerOutcome.missing =>
        ("error", "modal_trigger_not_found",
          [Effect.logAppend ⟨page_num, row_idx, name_text, folio, "", "", "error", "modal_trigger_not_found"⟩,
           Effect.metaAppend "" "" page_num row_idx])
    | TriggerOutcome.clickRaises =>
        ("error", "modal_click_failed",
          [Effect.logAppend ⟨page_num, row_idx, name_text, folio, "", "", "error", "modal_click_failed"⟩,
           Effect.metaAppend "" "" page_num row_idx])
    | TriggerOutcome.clicked =>
      -- D) CONFIDENCIAL modal?
      if env.confidential then
        ("confidential", "no_pdf",
          [Effect.closeAttempt env.closeRaises,
           Effect.logAppend ⟨page_num, row_idx, name_text, folio, "", "", "confidential", "record_confidential"⟩,
           Effect.metaAppend "" "" page_num row_idx,
           Effect.sleepMs 120])
      -- E) normal modal?
      else if !env.modalAppears then
        ("error", "modal_not_visible",
          [Effect.logAppend ⟨page_num, row_idx, name_text, folio, "", "", "error", "modal_not_visible"⟩,
           Effect.metaAppend "" "" page_num row_idx])
      else
        -- H) capture on a temporary page
        let pdfStep : Option Nat × List Effect :=
          match env.capture with
          | CaptureOutcome.raiseBefore =>
              (none,
               [Effect.logAppend ⟨page_num, row_idx, name_text, folio, "", "", "error", "pdf_generation_failed"⟩])
          | CaptureOutcome.raiseAfter =>
              (none,
               [Effect.tmpPageOpen,
                Effect.logAppend ⟨page_num, row_idx, name_text, folio, "", "", "error", "pdf_generation_failed"⟩])
          | CaptureOutcome.ok warn len =>
              (some len,
               Effect.tmpPageOpen ::
                 ((if warn then
                     [Effect.logAppend ⟨page_num, row_idx, name_text, folio, "", "", "warning", "modal_content_may_not_be_fully_loaded"⟩]
                   else []) ++ [Effect.tmpPageClose]))
        -- I) save PDF
        let saveStep : String × List Effect :=
          match pdfStep.1 with
          | some (Nat.succ _) =>
              if env.saveOk then
                ("success",
                 [Effect.pdfWrite out_path,
                  Effect.logAppend ⟨page_num, row_idx, name_text, folio, out_path, "", "success", ""⟩,
                  Effect.metaAppend out_path "" page_num row_idx])
              else
                ("error",
                 [Effect.logAppend ⟨page_num, row_idx, name_text, folio, "", "", "error", "write_failed"⟩])
          | _ =>
              ("error",
               [Effect.logAppend ⟨page_num, row_idx, name_text, folio, "", "", "error", "no_pdf_bytes"⟩])
        -- F) fixed 4s render wait, G) optional 3s layout wait, then H, I, J
        (saveStep.1, "done",
          Effect.sleepMs 4000 ::
            ((if env.resizeOk then [Effect.sleepMs 3000] else []) ++
              pdfStep.2 ++ saveStep.2 ++
              [Effect.closeAttempt env.closeRaises, Effect.sleepMs 120]))

/-! Trace observers. -/

def isMetaE : Effect → Bool
  | Effect.metaAppend _ _ _ _ => true
  | _ => false

/-- Number of metadata rows appended in a trace. -/
def metaCount (l : List Effect) : Nat :=
  (l.filter isMetaE).length

def isTmpOpenE : Effect → Bool
  | Effect.tmpPageOpen => true
  | _ => false

def isTmpCloseE : Effect → Bool
  | Effect.tmpPageClose => true
  | _ => false

def tmpOpenCount (l : List Effect) : Nat :=
  (l.filter isTmpOpenE).length

def tmpCloseCount (l : List Effect) : Nat :=
  (l.filter isTmpCloseE).length

def isCloseA : Effect → Bool
  | Effect.closeAttempt _ => true
  | _ => false

def isRowSleep : Effect → Bool
  | Effect.sleepMs ms => ms == 120
  | _ => false

/-- Number of `ROW_DELAY` pacing sleeps in a trace. -/
def rowSleepCount (l : List Effect) : Nat :=
  (l.filter isRowSleep).length

def isPdfWriteE : Effect → Bool
  | Effect.pdfWrite _ => true
  | _ => false

/-- Number of PDF files written in a trace. -/
def pdfWriteCount (l : List Effect) : Nat :=
  (l.filter isPdfWriteE).length

/-! ## Content stabilization loop (source lines 341-352)

```
last_height = 0
stable_count = 0
while stable_count < 3:
    height = measure()
    if height == last_height:
        stable_count += 1
    else:
        stable_count = 0
        last_height = height
    await asyncio.sleep(0.3)
```

Two views of the same loop are embedded.  `stabLoop`/`waitUntilStable` runs
the loop against a finite list of available samples and returns `some n` when
the loop exits having consumed `n` samples (so the stabilizing sample has
index `n - 1`), or `none` when the samples are exhausted with the loop still
running.  `stabCounter` gives the loop state `(last_height, stable_count)`
after `n` iterations against an infinite measure stream, which is the form
needed to reason about (non-)termination: the source loop has no timeout, so
it exits exactly when some `n` satisfies `3 ≤ (stabCounter f n).2`. -/

def stabLoop (req : Nat) : List Nat → Nat → Nat → Option Nat
  | [], _, cnt => if req ≤ cnt then some 0 else none
  | m :: rest, last, cnt =>
      if req ≤ cnt then some 0
      else if m = last then Option.map (fun k => k + 1) (stabLoop req rest last (cnt + 1))
      else Option.map (fun k => k + 1) (stabLoop req rest m 0)

/-- Run the stabilization loop with `requiredStableSamples = req` against the
finite sample list `ms`, from the initial state `last_height = 0`,
`stable_count = 0`. -/
def waitUntilStable (ms : List Nat) (req : Nat) : Option Nat :=
  stabLoop req ms 0 0

/-- Loop state `(last_height, stable_count)` after `n` iterations against the
measure stream `f` (iteration `k` reads sample `f k`). -/
def stabCounter (f : Nat → Nat) : Nat → Nat × Nat
  | 0 => (0, 0)
  | n + 1 =>
      let s := stabCounter f n
      if f n = s.1 then (s.1, s.2 + 1) else (f n, 0)

/-- The stabilization loop never exits on measure stream `f` with
`requiredStableSamples = req`: after every number of iterations the loop
condition `stable_count < req` still holds. -/
def StabNeverExits (f : Nat → Nat) (req : Nat) : Prop :=
  ∀ n, (stabCounter f n).2 < req

/-! ## Page traversal coordinator (source lines 478-516)

The inner loop of `main`:

```
for r_idx in range(nrows):
    try:
        status, note = await process_row(page, context, pnum, r_idx, ...)
    except Exception as e:
        append_log(pnum, r_idx, "", "", "", "", "error", f"unhandled:...")
```

run for each `pnum in range(start_page, endp + 1)`.  `process_row` is
abstracted to a function `f : page -> row -> RowOutcome` telling, for each
key, whether the call returns normally or raises.  The coordinator returns
the list of keys it invoked `f` on (in order) together with the ledger
entries appended by its own exception handler. -/

inductive RowOutcome where
  | ok
  | raised
deriving DecidableEq, Repr

/-- The coordinator's `try`/`except` around one `process_row` call: a raising
call is converted into one `error` ledger entry for that key. -/
def handleRow (f : Nat → Nat → RowOutcome) (pnum idx : Nat) : List LogEntry :=
  match f pnum idx with
  | RowOutcome.ok => []
  | RowOutcome.raised => [⟨pnum, idx, "", "", "", "", "error", "unhandled"⟩]

/-- The per-page row loop, over an explicit list of row indices: returns the
keys attempted and the handler's ledger entries. -/
def runRows (f : Nat → Nat → RowOutcome) (pnum : Nat) :
    List Nat → List (Nat × Nat) × List LogEntry
  | [] => ([], [])
  | i :: rest =>
      let r := runRows f pnum rest
      ((pnum, i) :: r.1, handleRow f pnum i ++ r.2)

/-- The page loop, over an explicit list of page numbers; `nrowsOf p` is the
number of rows found on page `p`. -/
def runPagesList (f : Nat → Nat → RowOutcome) (nrowsOf : Nat → Nat) :
    List Nat → List (Nat × Nat) × List LogEntry
  | [] => ([], [])
  | q :: rest =>
      let here := runRows f q (List.range (nrowsOf q))
      let there := runPagesList f nrowsOf rest
      (here.1 ++ there.1, here.2 ++ there.2)

/-- The whole run: pages `startPage, startPage+1, ..., endPage` (inclusive),
as produced by `range(args.start_page, endp + 1)`. -/
def runCoordinator (f : Nat → Nat → RowOutcome) (startPage endPage : Nat)
    (nrowsOf : Nat → Nat) : List (Nat × Nat) × List LogEntry :=
  runPagesList f nrowsOf (List.range' startPage (endPage + 1 - startPage))

/-- The full enumeration of keys of a run, independent of any outcome. -/
def allKeysPages (nrowsOf : Nat → Nat) : List Nat → List (Nat × Nat)
  | [] => []
  | q :: rest => (List.range (nrowsOf q)).map (fun i => (q, i)) ++ allKeysPages nrowsOf rest

def allKeys (startPage endPage : Nat) (nrowsOf : Nat → Nat) : List (Nat × Nat) :=
  allKeysPages nrowsOf (List.range' startPage (endPage + 1 - startPage))

/-- Number of `error` ledger entries for the key `(p, i)` in a ledger-entry
list. -/
def errCountFor (l : List LogEntry) (p i : Nat) : Nat :=
  (l.filter (fun e => decide (e.page = p) && decide (e.row_index = i) && decide (e.status = "error"))).length

/-! ## Concrete fixtures used by witnesses and counterexamples -/

/-- A fully cooperative environment: one row, trigger clicks, normal modal
appears, capture returns 5 bytes, save succeeds. -/
def rowEnvBase : RowEnv :=
  ⟨1, "N", "F", TriggerOutcome.clicked, false, true, true, CaptureOutcome.ok false 5, true, false⟩

/-- Like `rowEnvBase` but the modal trigger is missing from the row. -/
def envNoTrigger : RowEnv :=
  { rowEnvBase with trigger := TriggerOutcome.missing }

/-- Like `rowEnvBase` but `tmp_page.pdf` raises after the temporary page was
created. -/
def envCapRaise : RowEnv :=
  { rowEnvBase with capture := CaptureOutcome.raiseAfter }

/-- Like `rowEnvBase` but the capture returns empty bytes. -/
def envNoBytes : RowEnv :=
  { rowEnvBase with capture := CaptureOutcome.ok false 0 }

/-- A well-formed `success` ledger record for key `(1, 0)`. -/
def doneRow : List String :=
  ["1", "0", "Ana", "F1", "rnpdno_pdfs/Ana_F1.pdf", "", "success", ""]

/-! ## Supporting lemmas -/

lemma rowSaysDone_malformed (p i : Nat) (r : List String)
    (h : ¬(7 ≤ r.length ∧ pyIsDigit (r.getD 0 "") = true)) :
    rowSaysDone p i r = false := by
  unfold rowSaysDone
  rw [if_neg h]

lemma rowSaysDone_iff (p i : Nat) (r : List String) :
    rowSaysDone p i r = true ↔ SuccessEntryFor p i r := by
  unfold rowSaysDone SuccessEntryFor
  by_cases h1 : 7 ≤ r.length ∧ pyIsDigit (r.getD 0 "") = true
  · rw [if_pos h1]
    by_cases h2 : strToNat (r.getD 0 "") = p
    · by_cases h3 : pyIsDigit (r.getD 1 "") = true
      · rw [if_pos h2, if_pos h3, Bool.and_eq_true, decide_eq_true_eq, decide_eq_true_eq]
        constructor
        · rintro ⟨h4, h5⟩
          exact ⟨h1.1, h1.2, h2, h3, h4, h5⟩
        · rintro ⟨-, -, -, -, h4, h5⟩
          exact ⟨h4, h5⟩
      · rw [if_pos h2, if_neg h3]
        simp only [Bool.false_eq_true, false_iff]
        rintro ⟨-, -, -, h4, -, -⟩
        exact h3 h4
    · rw [if_neg h2]
      simp only [Bool.false_eq_true, false_iff]
      rintro ⟨-, -, h4, -, -, -⟩
      exact h2 h4
  · rw [if_neg h1]
    simp only [Bool.false_eq_true, false_iff]
    rintro ⟨ha, hb, -⟩
    exact h1 ⟨ha, hb⟩

lemma stabCounter_strictinc (n : Nat) :
    stabCounter (fun k => k + 1) n = (n, 0) := by
  induction n with
  | zero => rfl
  | succ n ih =>
      have h : ¬(n + 1 = n) := by omega
      simp only [stabCounter, ih]
      simp [h]

lemma stabCounter_succ (f : Nat → Nat) (n : Nat) :
    stabCounter f (n + 1) =
      if f n = (stabCounter f n).1 then ((stabCounter f n).1, (stabCounter f n).2 + 1)
      else (f n, 0) := rfl

/-! ## Claims -/

/-- C1: once the ledger holds a `success` entry for a key, `process_row` on
that key returns `skipped`/`already_logged` immediately with an empty effect
trace (no capture, no write); and `already_done` returns `true` iff some
ledger record for that key is a well-formed `success` entry. -/
theorem c1_idempotent_resume :
    (∀ ledger env p i d, already_done ledger p i = true →
      process_row ledger env p i d = ("skipped", "already_logged", ([] : List Effect))) ∧
    (∀ p i (rows : List (List String)),
      already_done (some rows) p i = true ↔ ∃ r ∈ rows, SuccessEntryFor p i r) := by
  constructor
  · intro ledger env p i d h
    unfold process_row
    rw [if_pos h]
  · intro p i rows
    show rows.any (rowSaysDone p i) = true ↔ _
    rw [List.any_eq_true]
    constructor
    · rintro ⟨r, hr, hs⟩
      exact ⟨r, hr, (rowSaysDone_iff p i r).mp hs⟩
    · rintro ⟨r, hr, hs⟩
      exact ⟨r, hr, (rowSaysDone_iff p i r).mpr hs⟩

/-- C1 witness: with a concrete `success` record for key `(1, 0)` in the
ledger, the fully cooperative environment is short-circuited to `skipped`
with no effects. -/
theorem c1_idempotent_resume_witness :
    process_row (some [doneRow]) rowEnvBase 1 0 false =
      ("skipped", "already_logged", ([] : List Effect)) :=
  c1_idempotent_resume.1 (some [doneRow]) rowEnvBase 1 0 false (by decide)

/-- C3 counterexample: with `requiredStableSamples = 3`, the loop has NOT
stabilized after the first six samples `[10,10,10,20,20,20]` (so not at index
5); on the full sequence it exits only after consuming all seven samples
(`some 7`, i.e. at index 6), not after six (`some 6`). -/
theorem c3_counterexample :
    waitUntilStable [10, 10, 10, 20, 20, 20] 3 = none ∧
    waitUntilStable [10, 10, 10, 20, 20, 20, 20] 3 = some 7 := by
  decide

/-- C3 (amended): the stabilization loop on the measure sequence
`[10,10,10,20,20,20,20]` with `requiredStableSamples = 3` declares stability
exactly at the sample of index 6 (the seventh sample, value 20), and at no
earlier point: every proper prefix leaves the loop still running.  (The
initial `last_height = 0` makes the first `10` count as a change, so the run
of three consecutive equal comparisons completes only at the fourth `20`.) -/
theorem c3_stabilization_index :
    waitUntilStable [10, 10, 10, 20, 20, 20, 20] 3 = some 7 ∧
    (∀ k, k < 7 → waitUntilStable (List.take k [10, 10, 10, 20, 20, 20, 20]) 3 = none) := by
  constructor
  · rfl
  · decide

/-- C3 witness: the amended theorem applied at the prefix of length 6. -/
theorem c3_stabilization_index_witness :
    waitUntilStable (List.take 6 [10, 10, 10, 20, 20, 20, 20]) 3 = none :=
  c3_stabilization_index.2 6 (by decide)

/-- C4 counterexample: the stabilization loop of `process_row` has no
timeout, and on the strictly increasing measure stream `fun k => k + 1` the
consecutive-equal counter never leaves `0`, so the loop condition
`stable_count < 3` never becomes false: the pipeline waits forever on this
input. -/
theorem c4_counterexample :
    StabNeverExits (fun k => k + 1) 3 := by
  intro n
  rw [stabCounter_strictinc]
  omega

/-- C4 (amended): every Playwright wait in `process_row` carries an explicit
timeout, but the height-stabilization polling loop does not; it terminates
exactly when the counter reaches the required count, which does happen for
every eventually constant measure stream (and fails to happen for streams
that never repeat, per the counterexample). -/
theorem c4_eventually_constant_terminates :
    ∀ (f : Nat → Nat) (N v req : Nat), (∀ n, N ≤ n → f n = v) →
      ∃ n, req ≤ (stabCounter f n).2 := by
  intro f N v req h
  have key : ∀ k, (stabCounter f (N + 1 + k)).1 = v ∧ k ≤ (stabCounter f (N + 1 + k)).2 := by
    intro k
    induction k with
    | zero =>
        have hN : f N = v := h N (le_refl N)
        rw [show N + 1 + 0 = N + 1 from rfl, stabCounter_succ]
        by_cases hc : f N = (stabCounter f N).1
        · rw [if_pos hc]
          exact ⟨by rw [← hc, hN], Nat.zero_le _⟩
        · rw [if_neg hc]
          exact ⟨hN, Nat.zero_le _⟩
    | succ k ih =>
        have hfn : f (N + 1 + k) = v := h (N + 1 + k) (by omega)
        rw [show N + 1 + (k + 1) = (N + 1 + k) + 1 from rfl, stabCounter_succ]
        rw [if_pos (by rw [hfn, ih.1])]
        exact ⟨ih.1, by omega⟩
  exact ⟨N + 1 + req, (key req).2⟩

/-- C4 witness: the amended theorem applied to the constant-zero measure
stream ("a region that never renders is stable at 0"). -/
theorem c4_eventually_constant_terminates_witness :
    ∃ n, 3 ≤ (stabCounter (fun _ => 0) n).2 :=
  c4_eventually_constant_terminates (fun _ => 0) 0 0 3 (fun _ _ => rfl)

/-- C9: `sanitize_filename` maps the concrete example as specified
(slash and asterisk replaced by underscore, accented letters, digits and the
other allowed characters preserved), its output never exceeds the configured
maximum length 120, and every output character is either an allowed character
or the underscore replacement. -/
theorem c9_sanitization :
    sanitize_filename "María/Pérez*2024" = "María_Pérez_2024" ∧
    (∀ s : String, (sanitize_filename s).length ≤ 120) ∧
    (∀ s : String, ∀ c ∈ (sanitize_filename s).data, keepChar c = true ∨ c = '_') := by
  refine ⟨rfl, ?_, ?_⟩
  · intro s
    show (List.take 120 (s.data.map (fun c => if keepChar c then c else '_'))).length ≤ 120
    rw [List.length_take]
    exact min_le_left _ _
  · intro s c hc
    have hc' : c ∈ (s.data.map (fun c => if keepChar c then c else '_')).take 120 := hc
    obtain ⟨a, -, ha⟩ := List.mem_map.mp (List.mem_of_mem_take hc')
    by_cases hk : keepChar a = true
    · left
      rw [← ha]
      simp [hk]
    · right
      rw [← ha]
      simp [hk]

/-- C9 witness: membership discharged at the accented letter of the concrete
example. -/
theorem c9_sanitization_witness :
    keepChar 'í' = true ∨ 'í' = '_' :=
  c9_sanitization.2.2 ("María/Pérez*2024") 'í' (by decide)

/-- C10: the resume scan is total and tolerant of malformed ledgers: a
missing file yields `false`; filtering out the records with fewer than 7
fields or a non-numeric first field never changes the answer (such records
are ignored); no such malformed record can register as done; and in
particular the CSV header row written by `init_logs` never registers as done
for any key. -/
theorem c10_resume_scan_totality :
    (∀ p i, already_done none p i = false) ∧
    (∀ p i (rows : List (List String)),
      already_done (some rows) p i =
        already_done (some (rows.filter
          (fun r => decide (7 ≤ r.length) && pyIsDigit (r.getD 0 "")))) p i) ∧
    (∀ p i (r : List String), (r.length < 7 ∨ pyIsDigit (r.getD 0 "") = false) →
      rowSaysDone p i r = false) ∧
    (∀ p i, already_done (some [logHeaderRow]) p i = false) := by
  have hmal : ∀ p i (r : List String), (r.length < 7 ∨ pyIsDigit (r.getD 0 "") = false) →
      rowSaysDone p i r = false := by
    intro p i r h
    apply rowSaysDone_malformed
    rintro ⟨h1, h2⟩
    rcases h with h | h
    · omega
    · rw [h2] at h
      exact absurd h (by decide)
  have hfilter : ∀ p i (rows : List (List String)),
      rows.any (rowSaysDone p i) =
        (rows.filter (fun r => decide (7 ≤ r.length) && pyIsDigit (r.getD 0 ""))).any
          (rowSaysDone p i) := by
    intro p i rows
    induction rows with
    | nil => rfl
    | cons r rest ih =>
        by_cases hr : (decide (7 ≤ r.length) && pyIsDigit (r.getD 0 "")) = true
        · simp only [List.any_cons, List.filter_cons]
          rw [if_pos hr, List.any_cons, ih]
        · have hfalse : rowSaysDone p i r = false := by
            apply rowSaysDone_malformed
            rintro ⟨h1, h2⟩
            apply hr
            rw [Bool.and_eq_true, decide_eq_true_eq]
            exact ⟨h1, h2⟩
          simp only [List.any_cons, List.filter_cons]
          rw [if_neg hr, hfalse, ih]
          simp
  refine ⟨fun p i => rfl, fun p i rows => hfilter p i rows, hmal, fun p i => ?_⟩
  have hhd : rowSaysDone p i logHeaderRow = false := hmal p i logHeaderRow (Or.inr (by decide))
  show ([logHeaderRow].any (rowSaysDone p i)) = false
  rw [List.any_cons]
  simp [hhd]

/-- C10 witness: the header row is ignored, and a missing log file answers
`false`, at the concrete key `(1, 0)`. -/
theorem c10_resume_scan_totality_witness :
    rowSaysDone 1 0 logHeaderRow = false ∧ already_done none 1 0 = false :=
  ⟨c10_resume_scan_totality.2.2.1 1 0 logHeaderRow (Or.inr (by decide)),
   c10_resume_scan_totality.1 1 0⟩

/-- C2 counterexample: when the capture produces empty bytes the item ends in
the terminal outcome `error`, yet NO metadata row is appended for it in this
run — refuting "exactly one metadata row is appended regardless of the
outcome" and in particular that "the error outcomes of process_row also
append a metadata row". -/
theorem c2_counterexample :
    (process_row none envNoBytes 1 0 false).1 = "error" ∧
    metaCount (process_row none envNoBytes 1 0 false).2.2 = 0 := by
  constructor <;> rfl

/-- C2 (amended): `process_row` appends at most one metadata row per
invocation; exactly one for the outcomes `success` and `confidential` and for
the pre-modal errors (trigger not found, click failed, modal not visible);
and none for `skipped`, for the out-of-bounds error, and for every error
decided in the capture/save stage (capture raised, empty bytes, write
failed — the invocations whose note is `done`). -/
theorem c2_metadata_coverage :
    ∀ ledger env p i d,
      metaCount (process_row ledger env p i d).2.2 ≤ 1 ∧
      ((process_row ledger env p i d).1 = "skipped" →
        metaCount (process_row ledger env p i d).2.2 = 0) ∧
      ((process_row ledger env p i d).1 = "success" →
        metaCount (process_row ledger env p i d).2.2 = 1) ∧
      ((process_row ledger env p i d).1 = "confidential" →
        metaCount (process_row ledger env p i d).2.2 = 1) ∧
      ((process_row ledger env p i d).1 = "error" →
        metaCount (process_row ledger env p i d).2.2 =
          (if (process_row ledger env p i d).2.1 = "done" ∨
              (process_row ledger env p i d).2.1 = "row_index_out_of_bounds" then 0 else 1)) := by
  intro ledger env p i d
  obtain ⟨nr, nom, fol, trig, conf, modalA, resz, cap, sav, clsR⟩ := env
  by_cases h1 : already_done ledger p i = true
  · simp [process_row, h1, metaCount]
  · by_cases h2 : nr ≤ i
    · simp [process_row, h1, h2, metaCount]
    · cases trig <;> cases conf <;> cases modalA <;> cases resz <;> cases sav <;>
        rcases cap with _ | _ | ⟨warn, len⟩ <;>
        first
          | (cases warn <;> cases len <;>
              simp [process_row, h1, h2, metaCount, isMetaE, List.filter])
          | simp [process_row, h1, h2, metaCount, isMetaE, List.filter]

/-- C2 witness: the amended theorem applied at a successful concrete
invocation yields exactly one metadata row. -/
theorem c2_metadata_coverage_witness :
    metaCount (process_row none rowEnvBase 1 0 false).2.2 = 1 :=
  (c2_metadata_coverage none rowEnvBase 1 0 false).2.2.1 (by decide)

/-- C5 counterexample: when `tmp_page.pdf` raises after the temporary page
was created (there is no `finally` in section H of the source), the
exception handler sets `pdf_bytes = None` without closing the page:
`process_row` returns with the temporary capture page still open. -/
theorem c5_counterexample :
    tmpOpenCount (process_row none envCapRaise 1 0 false).2.2 = 1 ∧
    tmpCloseCount (process_row none envCapRaise 1 0 false).2.2 = 0 := by
  constructor <;> rfl

/-- C5 (amended): the temporary capture page is closed before `process_row`
returns on every capture path EXCEPT the one where an exception is raised
after the page's creation: openings never exceed one and closings never
exceed openings, the page is balanced whenever the capture step is not
`raiseAfter` (including the stabilization-timeout path, which only logs a
warning), and on the `raiseAfter` path that actually reaches capture the
page is opened and never closed. -/
theorem c5_tmp_page_release :
    ∀ ledger env p i d,
      tmpCloseCount (process_row ledger env p i d).2.2 ≤
        tmpOpenCount (process_row ledger env p i d).2.2 ∧
      tmpOpenCount (process_row ledger env p i d).2.2 ≤ 1 ∧
      (env.capture ≠ CaptureOutcome.raiseAfter →
        tmpCloseCount (process_row ledger env p i d).2.2 =
          tmpOpenCount (process_row ledger env p i d).2.2) ∧
      (env.capture = CaptureOutcome.raiseAfter →
        (process_row ledger env p i d).2.1 = "done" →
        tmpOpenCount (process_row ledger env p i d).2.2 = 1 ∧
          tmpCloseCount (process_row ledger env p i d).2.2 = 0) := by
  intro ledger env p i d
  obtain ⟨nr, nom, fol, trig, conf, modalA, resz, cap, sav, clsR⟩ := env
  by_cases h1 : already_done ledger p i = true
  · simp [process_row, h1, tmpOpenCount, tmpCloseCount]
  · by_cases h2 : nr ≤ i
    · simp [process_row, h1, h2, tmpOpenCount, tmpCloseCount]
    · cases trig <;> cases conf <;> cases modalA <;> cases resz <;> cases sav <;>
        rcases cap with _ | _ | ⟨warn, len⟩ <;>
        first
          | (cases warn <;> cases len <;>
              simp [process_row, h1, h2, tmpOpenCount, tmpCloseCount,
                isTmpOpenE, isTmpCloseE, List.filter])
          | simp [process_row, h1, h2, tmpOpenCount, tmpCloseCount,
              isTmpOpenE, isTmpCloseE, List.filter]

/-- C5 witness: on the fully cooperative environment (capture does not
raise) openings and closings of the temporary page balance. -/
theorem c5_tmp_page_release_witness :
    tmpCloseCount (process_row none rowEnvBase 1 0 false).2.2 =
      tmpOpenCount (process_row none rowEnvBase 1 0 false).2.2 :=
  (c5_tmp_page_release none rowEnvBase 1 0 false).2.2.1 (by decide)

/-- C6 counterexample: an invocation ending in the non-skipped terminal
outcome `error` (trigger not found) returns with no dismissal attempt and no
`ROW_DELAY` pacing sleep, refuting "for every non-skipped terminal outcome
the surface is dismissed and the pacing delay is applied". -/
theorem c6_counterexample :
    (process_row none envNoTrigger 1 0 false).1 = "error" ∧
    rowSleepCount (process_row none envNoTrigger 1 0 false).2.2 = 0 ∧
    (process_row none envNoTrigger 1 0 false).2.2.any isCloseA = false := by
  refine ⟨rfl, rfl, rfl⟩

/-- C6 (amended): the dismiss-and-pace epilogue runs exactly for the
`confidential` outcome and for every outcome that reaches the capture stage
(the invocations whose note is `done`: success, capture errors, write
errors); the error exits before the detail surface is open (out-of-bounds,
trigger not found, click failed, modal not visible) return with neither a
dismissal attempt nor the pacing delay; and where the close IS attempted its
failure is swallowed: the returned status and note never depend on whether
closing raises. -/
theorem c6_terminal_cleanup_pacing :
    ∀ ledger env p i d b,
      (((process_row ledger env p i d).1 = "confidential" ∨
          (process_row ledger env p i d).2.1 = "done") →
        ((process_row ledger env p i d).2.2.any isCloseA = true ∧
          rowSleepCount (process_row ledger env p i d).2.2 = 1)) ∧
      (((process_row ledger env p i d).2.1 = "modal_trigger_not_found" ∨
          (process_row ledger env p i d).2.1 = "modal_click_failed" ∨
          (process_row ledger env p i d).2.1 = "modal_not_visible" ∨
          (process_row ledger env p i d).2.1 = "row_index_out_of_bounds") →
        ((process_row ledger env p i d).2.2.any isCloseA = false ∧
          rowSleepCount (process_row ledger env p i d).2.2 = 0)) ∧
      ((process_row ledger { env with closeRaises := b } p i d).1 =
          (process_row ledger env p i d).1 ∧
        (process_row ledger { env with closeRaises := b } p i d).2.1 =
          (process_row ledger env p i d).2.1) := by
  intro ledger env p i d b
  obtain ⟨nr, nom, fol, trig, conf, modalA, resz, cap, sav, clsR⟩ := env
  by_cases h1 : already_done ledger p i = true
  · simp [process_row, h1, rowSleepCount]
  · by_cases h2 : nr ≤ i
    · simp [process_row, h1, h2, rowSleepCount]
    · cases trig <;> cases conf <;> cases modalA <;> cases resz <;> cases sav <;>
        rcases cap with _ | _ | ⟨warn, len⟩ <;>
        first
          | (cases warn <;> cases len <;>
              simp [process_row, h1, h2, rowSleepCount, isRowSleep, isCloseA, List.filter])
          | simp [process_row, h1, h2, rowSleepCount, isRowSleep, isCloseA, List.filter]

/-- C6 witness: on a successful concrete invocation the epilogue runs: one
dismissal attempt and one pacing sleep. -/
theorem c6_terminal_cleanup_pacing_witness :
    (process_row none rowEnvBase 1 0 false).2.2.any isCloseA = true ∧
    rowSleepCount (process_row none rowEnvBase 1 0 false).2.2 = 1 :=
  (c6_terminal_cleanup_pacing none rowEnvBase 1 0 false true).1 (Or.inr (by decide))

/-- C8: the `--dry-run` flag is parsed (help text: "do not actually download
PDFs") and threaded into `process_row`, but the body never reads it:
`process_row` behaves identically — including writing the PDF file — with
`dry_run = True` and `dry_run = False`, and a concrete successful dry-run
invocation does write one PDF. -/
theorem c8_dry_run_ignored :
    (∀ ledger env p i, process_row ledger env p i true = process_row ledger env p i false) ∧
    pdfWriteCount (process_row none rowEnvBase 1 0 true).2.2 = 1 := by
  exact ⟨fun ledger env p i => rfl, rfl⟩

/-! ## Coordinator lemmas for C7 -/

lemma errCountFor_append (a b : List LogEntry) (p i : Nat) :
    errCountFor (a ++ b) p i = errCountFor a p i + errCountFor b p i := by
  unfold errCountFor
  rw [List.filter_append, List.length_append]

lemma errCountFor_handleRow (f : Nat → Nat → RowOutcome) (q j p i : Nat) :
    errCountFor (handleRow f q j) p i =
      if q = p ∧ j = i ∧ f q j = RowOutcome.raised then 1 else 0 := by
  unfold handleRow
  cases hf : f q j with
  | ok =>
      rw [if_neg (by rintro ⟨-, -, hcon⟩; cases hcon)]
      rfl
  | raised =>
      by_cases hq : q = p <;> by_cases hj : j = i <;>
        simp [errCountFor, List.filter, hq, hj]

lemma runRows_keys (f : Nat → Nat → RowOutcome) (pnum : Nat) (is : List Nat) :
    (runRows f pnum is).1 = is.map (fun i => (pnum, i)) := by
  induction is with
  | nil => rfl
  | cons i rest ih => simp [runRows, ih]

lemma errCountFor_runRows_notmem (f : Nat → Nat → RowOutcome) (q : Nat) (is : List Nat)
    (p i : Nat) (h : q ≠ p ∨ i ∉ is) :
    errCountFor (runRows f q is).2 p i = 0 := by
  induction is with
  | nil => rfl
  | cons j rest ih =>
      show errCountFor (handleRow f q j ++ (runRows f q rest).2) p i = 0
      rw [errCountFor_append, errCountFor_handleRow]
      rw [if_neg, ih]
      · rcases h with h | h
        · exact Or.inl h
        · exact Or.inr (fun hm => h (List.mem_cons_of_mem _ hm))
      · rintro ⟨hq, hj, -⟩
        rcases h with h | h
        · exact h hq
        · exact h (hj ▸ List.mem_cons_self j rest)

lemma errCountFor_runRows_self (f : Nat → Nat → RowOutcome) (p i : Nat) (is : List Nat)
    (hnd : is.Nodup) (hmem : i ∈ is) (hr : f p i = RowOutcome.raised) :
    errCountFor (runRows f p is).2 p i = 1 := by
  induction is with
  | nil => cases hmem
  | cons j rest ih =>
      show errCountFor (handleRow f p j ++ (runRows f p rest).2) p i = 1
      rw [errCountFor_append, errCountFor_handleRow]
      rcases List.mem_cons.mp hmem with rfl | hmem2
      · rw [if_pos ⟨rfl, rfl, hr⟩,
          errCountFor_runRows_notmem f p rest p i (Or.inr (List.nodup_cons.mp hnd).1)]
      · have hji : j ≠ i := by
          rintro rfl
          exact (List.nodup_cons.mp hnd).1 hmem2
        rw [if_neg (by rintro ⟨-, hcon, -⟩; exact hji hcon)]
        rw [ih (List.nodup_cons.mp hnd).2 hmem2]

lemma runPagesList_keys (f : Nat → Nat → RowOutcome) (nrowsOf : Nat → Nat) (ps : List Nat) :
    (runPagesList f nrowsOf ps).1 = allKeysPages nrowsOf ps := by
  induction ps with
  | nil => rfl
  | cons q rest ih => simp [runPagesList, allKeysPages, runRows_keys, ih]

lemma errCountFor_runPagesList_notmem (f : Nat → Nat → RowOutcome) (nrowsOf : Nat → Nat)
    (ps : List Nat) (p i : Nat) (h : p ∉ ps) :
    errCountFor (runPagesList f nrowsOf ps).2 p i = 0 := by
  induction ps with
  | nil => rfl
  | cons q rest ih =>
      show errCountFor ((runRows f q (List.range (nrowsOf q))).2 ++
        (runPagesList f nrowsOf rest).2) p i = 0
      rw [errCountFor_append,
        errCountFor_runRows_notmem f q _ p i
          (Or.inl (fun hc => h (hc ▸ List.mem_cons_self q rest))),
        ih (fun hm => h (List.mem_cons_of_mem _ hm))]

lemma errCountFor_runPagesList_self (f : Nat → Nat → RowOutcome) (nrowsOf : Nat → Nat)
    (ps : List Nat) (p i : Nat) (hnd : ps.Nodup) (hmem : p ∈ ps) :
    errCountFor (runPagesList f nrowsOf ps).2 p i =
      errCountFor (runRows f p (List.range (nrowsOf p))).2 p i := by
  induction ps with
  | nil => cases hmem
  | cons q rest ih =>
      show errCountFor ((runRows f q (List.range (nrowsOf q))).2 ++
        (runPagesList f nrowsOf rest).2) p i = _
      rw [errCountFor_append]
      rcases List.mem_cons.mp hmem with rfl | hmem2
      · rw [errCountFor_runPagesList_notmem f nrowsOf rest p i (List.nodup_cons.mp hnd).1]
        exact Nat.add_zero _
      · have hqp : q ≠ p := by
          rintro rfl
          exact (List.nodup_cons.mp hnd).1 hmem2
        rw [errCountFor_runRows_notmem f q _ p i (Or.inl hqp),
          ih (List.nodup_cons.mp hnd).2 hmem2]
        exact Nat.zero_add _

lemma mem_allKeysPages (nrowsOf : Nat → Nat) (ps : List Nat) (p i : Nat) :
    (p, i) ∈ allKeysPages nrowsOf ps ↔ p ∈ ps ∧ i < nrowsOf p := by
  induction ps with
  | nil => simp [allKeysPages]
  | cons q rest ih =>
      constructor
      · intro h
        rcases List.mem_append.mp h with h | h
        · obtain ⟨a, ha, hEq⟩ := List.mem_map.mp h
          injection hEq with hq hi
          subst hq
          subst hi
          exact ⟨List.mem_cons_self _ _, List.mem_range.mp ha⟩
        · have h2 := ih.mp h
          exact ⟨List.mem_cons_of_mem _ h2.1, h2.2⟩
      · rintro ⟨hp, hi⟩
        rcases List.mem_cons.mp hp with rfl | hp2
        · exact List.mem_append.mpr
            (Or.inl (List.mem_map.mpr ⟨i, List.mem_range.mpr hi, rfl⟩))
        · exact List.mem_append.mpr (Or.inr (ih.mpr ⟨hp2, hi⟩))

lemma mem_pagesRange (startPage endPage p : Nat) :
    p ∈ List.range' startPage (endPage + 1 - startPage) ↔
      startPage ≤ p ∧ p ≤ endPage := by
  rw [List.mem_range'_1]
  omega

/-- C7: the coordinator's traversal is identical for every outcome function —
it attempts exactly the keys of all pages of the run in order, so an item
that raises never prevents the remaining items and pages from being
processed — and when `process_row` raises at an in-range key, the
coordinator's handler appends exactly one `error` ledger entry for that
key. -/
theorem c7_isolated_failure_containment :
    ∀ (f : Nat → Nat → RowOutcome) (startPage endPage : Nat) (nrowsOf : Nat → Nat)
      (p i : Nat),
      (runCoordinator f startPage endPage nrowsOf).1 = allKeys startPage endPage nrowsOf ∧
      ((p, i) ∈ (runCoordinator f startPage endPage nrowsOf).1 ↔
        startPage ≤ p ∧ p ≤ endPage ∧ i < nrowsOf p) ∧
      (f p i = RowOutcome.raised → startPage ≤ p → p ≤ endPage → i < nrowsOf p →
        errCountFor (runCoordinator f startPage endPage nrowsOf).2 p i = 1) := by
  intro f startPage endPage nrowsOf p i
  refine ⟨runPagesList_keys f nrowsOf _, ?_, ?_⟩
  · show (p, i) ∈
        (runPagesList f nrowsOf (List.range' startPage (endPage + 1 - startPage))).1 ↔ _
    rw [runPagesList_keys, mem_allKeysPages, mem_pagesRange]
    omega
  · intro hr h1 h2 h3
    show errCountFor (runPagesList f nrowsOf _).2 p i = 1
    rw [errCountFor_runPagesList_self f nrowsOf _ p i (List.nodup_range' _ _)
        ((mem_pagesRange startPage endPage p).mpr ⟨h1, h2⟩)]
    exact errCountFor_runRows_self f p i _ (List.nodup_range _)
      (List.mem_range.mpr h3) hr

/-- C7 witness: the concrete scenario of the specification — the item
`(3, 2)` raises during capture in a run over pages 3 and 4 with five rows
per page: exactly one `error` entry exists for `(3, 2)` and the later items
`(3, 3)` and `(4, 4)` are still attempted. -/
theorem c7_isolated_failure_containment_witness :
    errCountFor (runCoordinator
        (fun p i => if p = 3 ∧ i = 2 then RowOutcome.raised else RowOutcome.ok)
        3 4 (fun _ => 5)).2 3 2 = 1 ∧
    (3, 3) ∈ (runCoordinator
        (fun p i => if p = 3 ∧ i = 2 then RowOutcome.raised else RowOutcome.ok)
        3 4 (fun _ => 5)).1 ∧
    (4, 4) ∈ (runCoordinator
        (fun p i => if p = 3 ∧ i = 2 then RowOutcome.raised else RowOutcome.ok)
        3 4 (fun _ => 5)).1 :=
  ⟨(c7_isolated_failure_containment
      (fun p i => if p = 3 ∧ i = 2 then RowOutcome.raised else RowOutcome.ok)
      3 4 (fun _ => 5) 3 2).2.2 (by decide) (by decide) (by decide) (by decide),
   by decide, by decide⟩

end RNPDNO
